import Mathlib

/-!
Shallow embedding of the swes blog server, translated from the Rust sources
src/blog_storage.rs, src/main.rs, src/file_server.rs and src/handlebars_support.rs.

Modelling conventions:
* the HashMap String -> Arc BlogEntry of entries is modelled extensionally as a
  function String -> Option BlogEntry;
* the Vec of most recent entries is a List;
* SystemTime is a natural number of time units;
* file system reads, the YAML front-matter split, the markdown renderer and the
  handlebars renderer are external collaborators; their outcomes are passed to the
  embedded functions as explicit oracle arguments;
* RwLock poisoning cannot occur in this sequential model, so the Ok arm of every
  RwLock match in the source is the one embedded.
-/

/-- Metadata schema of a post (struct PostMetadata in src/blog_storage.rs).  The only
declared field is title, so under the derived serde Deserialize instance title is
the only required front-matter field. -/
structure PostMetadata where
  title : String
deriving DecidableEq

/-- A rendered blog entry (struct BlogEntry in src/blog_storage.rs). -/
structure BlogEntry where
  description : PostMetadata
  html : String
  creation_date : Nat
  filename : String
deriving DecidableEq

/-- Total-order comparison on Nat, modelling Ord::cmp on SystemTime values. -/
def natCmp (a b : Nat) : Ordering :=
  if a < b then .lt else if b < a then .gt else .eq

/-- Rust slice::binary_search_by with comparator (e. creation_date).cmp(d), as called in
BlogStorage::try_store_entry (src/blog_storage.rs line 85).  The loop of the Rust
implementation keeps a window from left (inclusive) to right (exclusive); the fuel
argument only pays for the loop iterations and never changes the result as long as
fuel is at least the window size, which every caller in this file guarantees.  The
Ok pos and Err pos outcomes are collapsed to the returned index pos, because
try_store_entry inserts at pos in either case (lines 86-87). -/
def bsearchGo (l : List BlogEntry) (d : Nat) : Nat → Nat → Nat → Nat
  | 0, left, _ => left
  | fuel + 1, left, right =>
    if left < right then
      match l[left + (right - left) / 2]? with
      | none => left
      | some a =>
        match natCmp a.creation_date d with
        | .lt => bsearchGo l d fuel (left + (right - left) / 2 + 1) right
        | .eq => left + (right - left) / 2
        | .gt => bsearchGo l d fuel left (left + (right - left) / 2)
    else left

/-- The insertion index computed by the binary search over the whole vector. -/
def bsearchPos (l : List BlogEntry) (d : Nat) : Nat := bsearchGo l d l.length 0 l.length

/-- In-memory entry store (struct BlogStorage in src/blog_storage.rs).  The field
base_path is dropped: it is only used to build the path handed to the file system,
whose answer is passed to get_entry as an oracle. -/
structure BlogStorage where
  entries : String → Option BlogEntry
  most_recent_entries : List BlogEntry
  max_most_recent_entries : Nat

/-- BlogStorage::new — empty indices, max_most_recent_entries = 10. -/
def BlogStorage.new : BlogStorage :=
  { entries := fun _ => none
    most_recent_entries := []
    max_most_recent_entries := 10 }

/-- BlogStorage::try_store_entry (src/blog_storage.rs lines 72-94): insert or replace
in the entries map, then insert into most_recent_entries at the binary-search
position for the new creation_date and truncate to max_most_recent_entries. -/
def BlogStorage.try_store_entry (s : BlogStorage) (entry_name : String) (entry : BlogEntry) :
    BlogStorage :=
  { s with
    entries := Function.update s.entries entry_name (some entry)
    most_recent_entries :=
      ((s.most_recent_entries.insertIdx
          (bsearchPos s.most_recent_entries entry.creation_date) entry).take
        s.max_most_recent_entries) }

/-- BlogStorage::remove_entry (src/blog_storage.rs lines 61-70): removes the key from
the entries map.  The most_recent_entries vector is not touched by the source. -/
def BlogStorage.remove_entry (s : BlogStorage) (entry_name : String) : BlogStorage :=
  { s with entries := Function.update s.entries entry_name none }

/-- BlogStorage::try_find_cached_entry (src/blog_storage.rs lines 138-146). -/
def BlogStorage.try_find_cached_entry (s : BlogStorage) (entry_name : String) :
    Option BlogEntry :=
  s.entries entry_name

/-- BlogStorage::contains_entry (src/blog_storage.rs lines 96-101). -/
def BlogStorage.contains_entry (s : BlogStorage) (entry_name : String) : Bool :=
  (s.entries entry_name).isSome

/-- BlogStorage::get_entry (src/blog_storage.rs lines 48-59).  On a cache hit the
cached entry is returned and the store is unchanged; on a miss the source awaits
parse_file_to_html on base_path.join(entry_name) — its outcome is the oracle
argument disk — and on parse success stores the parsed entry via try_store_entry. -/
def BlogStorage.get_entry (s : BlogStorage) (entry_name : String)
    (disk : Except String BlogEntry) : Except String BlogEntry × BlogStorage :=
  match s.entries entry_name with
  | some cached => (.ok cached, s)
  | none =>
    match disk with
    | .ok entry => (.ok entry, s.try_store_entry entry_name entry)
    | .error e => (.error e, s)

/-- States of the store reachable from BlogStorage::new by any sequence of upsert
(try_store_entry) and remove (remove_entry) operations. -/
inductive Reachable : BlogStorage → Prop
  | new : Reachable BlogStorage.new
  | store (s : BlogStorage) (n : String) (e : BlogEntry) :
      Reachable s → Reachable (s.try_store_entry n e)
  | remove (s : BlogStorage) (n : String) :
      Reachable s → Reachable (s.remove_entry n)

/-- Front-matter fields that a source file may carry (spec section 6 lists title,
author, publish_date); each is present or absent in the YAML block. -/
structure FrontMatterFields where
  title : Option String
  author : Option String
  publish_date : Option String
deriving DecidableEq

/-- Deserialization of PostMetadata from the front-matter fields: the derived serde
instance for struct PostMetadata (src/blog_storage.rs lines 12-15) requires exactly
the declared fields, that is, only title. -/
def deserialize_post_metadata (f : FrontMatterFields) : Except String PostMetadata :=
  match f.title with
  | some t => .ok { title := t }
  | none => .error "missing field title"

/-- A source file once read: the YAML front-matter block (none when the block is
missing or malformed) and the markdown body. -/
structure RawDocument where
  front_matter : Option FrontMatterFields
  body : String
deriving DecidableEq

/-- YamlFrontMatter::parse::<PostMetadata> as used in parse_file_to_html (line 119):
fails when the block is missing or malformed, otherwise deserializes PostMetadata. -/
def parse_document (doc : RawDocument) : Except String PostMetadata :=
  match doc.front_matter with
  | none => .error "invalid front matter"
  | some f => deserialize_post_metadata f

/-- BlogStorage::parse_file_to_html (src/blog_storage.rs lines 116-136).  The oracle
file is the result of reading the file (none models an io error from read_to_string
or metadata), created is the file creation timestamp (none models meta.created()
failing), markdown_to_html stands for comrak::markdown_to_html with default options. -/
def parse_file_to_html (filename : String) (file : Option RawDocument)
    (created : Option Nat) (markdown_to_html : String → String) : Except String BlogEntry :=
  match file with
  | none => .error "io error"
  | some doc =>
    match parse_document doc with
    | .error e => .error e
    | .ok meta =>
      match created with
      | none => .error "creation time unavailable"
      | some t =>
        .ok { description := meta
              html := markdown_to_html doc.body
              creation_date := t
              filename := filename }

/-- Rust str::ends_with, modelled over the character lists of the strings: the string
ends with the suffix when its last suffix-length characters equal the suffix. -/
def ends_with (s suffix : String) : Bool :=
  s.data.drop (s.data.length - suffix.data.length) == suffix.data

/-- Rust str::starts_with, modelled over the character lists of the strings. -/
def starts_with (s p : String) : Bool :=
  s.data.take p.data.length == p.data

/-- is_valid_filename_entry (src/main.rs lines 114-116). -/
def is_valid_filename_entry (filename : String) : Bool :=
  ends_with filename ".md" && !(starts_with filename "_")

/-- Effect of create_entry (src/main.rs lines 62-81) on the store, given the parse
outcome of the created file: ineligible filenames and failed parses store nothing. -/
def create_entry (filename : String) (parsed : Except String BlogEntry)
    (s : BlogStorage) : BlogStorage :=
  if !(is_valid_filename_entry filename) then s
  else
    match parsed with
    | .error _ => s
    | .ok e => s.try_store_entry filename e

/-- The content watcher callback arm for EventKind::Create(CreateKind::File)
(src/main.rs lines 205-212): it spawns create_entry and sends UpdateEvent::Reload
on the broadcast channel.  The Bool of the result records whether Reload was sent. -/
def on_created_file (filename : String) (parsed : Except String BlogEntry)
    (s : BlogStorage) : BlogStorage × Bool :=
  (create_entry filename parsed s, true)

/-- Which template the blog route renders for a request. -/
inductive Page where
  | blog_entry_page : BlogEntry → Page
  | entry_not_found_page : String → Page
deriving DecidableEq

/-- The blog route handler (fn blog, src/main.rs lines 299-316): calls get_entry and
renders the blog_entry template on Ok, the entry_not_found template on Err. -/
def blog (entry : String) (s : BlogStorage) (disk : Except String BlogEntry) :
    Page × BlogStorage :=
  match s.get_entry entry disk with
  | (.ok e, s2) => (.blog_entry_page e, s2)
  | (.error _, s2) => (.entry_not_found_page entry, s2)

/-- One step of the lexical cleaning performed by path_clean::clean on a relative
path, over a list of path segments: dot and empty segments are dropped, a dot-dot
segment pops the previous real segment and is kept when there is nothing left to
pop, any other segment is appended. -/
def cleanStep (out : List String) (seg : String) : List String :=
  if seg = "" ∨ seg = "." then out
  else if seg = ".." then
    match out.getLast? with
    | none => [".."]
    | some last => if last = ".." then out ++ [".."] else out.dropLast
  else out ++ [seg]

/-- path_clean::clean on a relative path given as segments. -/
def clean (segs : List String) : List String := segs.foldl cleanStep []

/-- FileServer::serve path resolution (src/file_server.rs lines 23-24): the requested
path is joined to the base directory first and the result is cleaned afterwards. -/
def FileServer.resolve (base req : List String) : List String := clean (base ++ req)

/-- A resolved path stays under the base directory when the base is a leading run of
its segments. -/
def underBase (base p : List String) : Prop := p.take base.length = base

/-- Outcome of HandlebarsSupport rendering: the source calls
self.handlebars.render(template, data).unwrap() (src/handlebars_support.rs lines
77-101), so a render-time error panics; the panic is modelled as none.  The oracle
render maps a template name to the outcome of handlebars::render for it; the record
data built from the arguments is folded into the oracle. -/
def render_unwrap (render : String → Except String String) (template : String) :
    Option String :=
  match render template with
  | .ok s => some s
  | .error _ => none

/-- HandlebarsSupport::format_blog_entry (src/handlebars_support.rs lines 77-83). -/
def format_blog_entry (render : String → Except String String) : Option String :=
  render_unwrap render "blog_entry"

/-- HandlebarsSupport::format_home (src/handlebars_support.rs lines 85-91). -/
def format_home (render : String → Except String String) : Option String :=
  render_unwrap render "home"

/-- HandlebarsSupport::format_not_found (src/handlebars_support.rs lines 93-101). -/
def format_not_found (render : String → Except String String) : Option String :=
  render_unwrap render "entry_not_found"

/-- Sample entry with creation date 1, used in concrete evaluations. -/
def aEntry : BlogEntry :=
  { description := { title := "A" }, html := "", creation_date := 1, filename := "a.md" }

/-- Sample entry with creation date 2, used in concrete evaluations. -/
def bEntry : BlogEntry :=
  { description := { title := "B" }, html := "", creation_date := 2, filename := "b.md" }

/-- Sample stored entry for the blog route evaluations. -/
def helloEntry : BlogEntry :=
  { description := { title := "Hello" }, html := "<h1>hi</h1>", creation_date := 1,
    filename := "hello.md" }

/-- Sample entry whose filename is ineligible (leading underscore). -/
def draftEntry : BlogEntry :=
  { description := { title := "Draft" }, html := "", creation_date := 2,
    filename := "_draft.md" }

/-- Family of sample entries indexed by creation date. -/
def cexEntry (i : Nat) : BlogEntry :=
  { description := { title := "T" }, html := "", creation_date := i,
    filename := toString i ++ ".md" }

/-- A store holding ten entries with creation dates 1 to 10, so that its recent view
is full. -/
def tenStore : BlogStorage :=
  (List.range 10).foldl
    (fun s i => s.try_store_entry (toString (i + 1) ++ ".md") (cexEntry (i + 1)))
    BlogStorage.new

theorem lt_of_natCmp_lt {a b : Nat} (h : natCmp a b = .lt) : a < b := by
  by_cases h1 : a < b
  · exact h1
  · by_cases h2 : b < a <;> simp [natCmp, h1, h2] at h

theorem eq_of_natCmp_eq {a b : Nat} (h : natCmp a b = .eq) : a = b := by
  by_cases h1 : a < b
  · simp [natCmp, h1] at h
  · by_cases h2 : b < a
    · simp [natCmp, h1, h2] at h
    · omega

theorem gt_of_natCmp_gt {a b : Nat} (h : natCmp a b = .gt) : b < a := by
  by_cases h1 : a < b
  · simp [natCmp, h1] at h
  · by_cases h2 : b < a
    · exact h2
    · simp [natCmp, h1, h2] at h

theorem bsearchGo_stop (l : List BlogEntry) (d fuel left right : Nat)
    (h : ¬ left < right) : bsearchGo l d (fuel + 1) left right = left := by
  simp only [bsearchGo, if_neg h]

theorem bsearchGo_none (l : List BlogEntry) (d fuel left right : Nat)
    (h : left < right) (hget : l[left + (right - left) / 2]? = none) :
    bsearchGo l d (fuel + 1) left right = left := by
  simp only [bsearchGo, if_pos h, hget]

theorem bsearchGo_lt (l : List BlogEntry) (d fuel left right : Nat) (a : BlogEntry)
    (h : left < right) (hget : l[left + (right - left) / 2]? = some a)
    (hcmp : natCmp a.creation_date d = .lt) :
    bsearchGo l d (fuel + 1) left right =
      bsearchGo l d fuel (left + (right - left) / 2 + 1) right := by
  simp only [bsearchGo, if_pos h, hget, hcmp]

theorem bsearchGo_eq (l : List BlogEntry) (d fuel left right : Nat) (a : BlogEntry)
    (h : left < right) (hget : l[left + (right - left) / 2]? = some a)
    (hcmp : natCmp a.creation_date d = .eq) :
    bsearchGo l d (fuel + 1) left right = left + (right - left) / 2 := by
  simp only [bsearchGo, if_pos h, hget, hcmp]

theorem bsearchGo_gt (l : List BlogEntry) (d fuel left right : Nat) (a : BlogEntry)
    (h : left < right) (hget : l[left + (right - left) / 2]? = some a)
    (hcmp : natCmp a.creation_date d = .gt) :
    bsearchGo l d (fuel + 1) left right =
      bsearchGo l d fuel left (left + (right - left) / 2) := by
  simp only [bsearchGo, if_pos h, hget, hcmp]

theorem bsearchGo_le (l : List BlogEntry) (d : Nat) :
    ∀ (fuel left right : Nat), left ≤ right → bsearchGo l d fuel left right ≤ right := by
  intro fuel
  induction fuel with
  | zero => intro left right h; simpa [bsearchGo] using h
  | succ fuel ih =>
    intro left right h
    by_cases hlt : left < right
    · cases hget : l[left + (right - left) / 2]? with
      | none => rw [bsearchGo_none l d fuel left right hlt hget]; exact h
      | some a =>
        cases hcmp : natCmp a.creation_date d with
        | lt =>
          rw [bsearchGo_lt l d fuel left right a hlt hget hcmp]
          exact ih (left + (right - left) / 2 + 1) right (by omega)
        | eq =>
          rw [bsearchGo_eq l d fuel left right a hlt hget hcmp]
          omega
        | gt =>
          rw [bsearchGo_gt l d fuel left right a hlt hget hcmp]
          exact Nat.le_trans (ih left (left + (right - left) / 2) (by omega)) (by omega)
    · rw [bsearchGo_stop l d fuel left right hlt]
      exact h

theorem bsearchPos_le_length (l : List BlogEntry) (d : Nat) : bsearchPos l d ≤ l.length :=
  bsearchGo_le l d l.length 0 l.length (Nat.zero_le _)

theorem bsearchGo_spec (l : List BlogEntry) (d : Nat)
    (hs : List.Pairwise (fun x y : BlogEntry => x.creation_date ≤ y.creation_date) l) :
    ∀ (fuel left right : Nat), right - left ≤ fuel → left ≤ right → right ≤ l.length →
      (∀ i (hi : i < l.length), i < left → (l.get ⟨i, hi⟩).creation_date ≤ d) →
      (∀ i (hi : i < l.length), right ≤ i → d ≤ (l.get ⟨i, hi⟩).creation_date) →
      ((∀ i (hi : i < l.length), i < bsearchGo l d fuel left right →
          (l.get ⟨i, hi⟩).creation_date ≤ d)
        ∧ (∀ i (hi : i < l.length), bsearchGo l d fuel left right ≤ i →
          d ≤ (l.get ⟨i, hi⟩).creation_date)) := by
  have hmono : ∀ (i j : Nat) (hi : i < l.length) (hj : j < l.length), i ≤ j →
      (l.get ⟨i, hi⟩).creation_date ≤ (l.get ⟨j, hj⟩).creation_date := by
    intro i j hi hj hij
    rcases Nat.lt_or_ge i j with hlt | hge
    · exact List.pairwise_iff_get.mp hs ⟨i, hi⟩ ⟨j, hj⟩ hlt
    · have he : i = j := by omega
      subst he
      exact Nat.le_refl _
  intro fuel
  induction fuel with
  | zero =>
    intro left right hf h1 h2 hL hR
    simp only [bsearchGo]
    constructor
    · exact hL
    · intro i hi hge
      exact hR i hi (by omega)
  | succ fuel ih =>
    intro left right hf h1 h2 hL hR
    by_cases hlt : left < right
    · have hmr : left + (right - left) / 2 < right := by omega
      have hmlen : left + (right - left) / 2 < l.length := Nat.lt_of_lt_of_le hmr h2
      have hget : l[left + (right - left) / 2]? =
          some (l.get ⟨left + (right - left) / 2, hmlen⟩) := by
        rw [List.getElem?_eq_getElem hmlen]
        simp
      cases hcmp : natCmp (l.get ⟨left + (right - left) / 2, hmlen⟩).creation_date d with
      | lt =>
        rw [bsearchGo_lt l d fuel left right _ hlt hget hcmp]
        have hdlt := lt_of_natCmp_lt hcmp
        exact ih (left + (right - left) / 2 + 1) right (by omega) (by omega) h2
          (fun i hi hil =>
            Nat.le_of_lt (Nat.lt_of_le_of_lt (hmono i _ hi hmlen (by omega)) hdlt))
          hR
      | eq =>
        rw [bsearchGo_eq l d fuel left right _ hlt hget hcmp]
        have hdeq := eq_of_natCmp_eq hcmp
        constructor
        · intro i hi hil
          exact hdeq ▸ hmono i _ hi hmlen (by omega)
        · intro i hi hge
          exact hdeq ▸ hmono _ i hmlen hi hge
      | gt =>
        rw [bsearchGo_gt l d fuel left right _ hlt hget hcmp]
        have hdgt := gt_of_natCmp_gt hcmp
        exact ih left (left + (right - left) / 2) (by omega) (by omega) (Nat.le_of_lt hmlen)
          hL
          (fun i hi hgi =>
            Nat.le_of_lt (Nat.lt_of_lt_of_le hdgt (hmono _ i hmlen hi hgi)))
    · rw [bsearchGo_stop l d fuel left right hlt]
      constructor
      · exact hL
      · intro i hi hge
        exact hR i hi (by omega)


theorem pairwise_insertIdx {α : Type} {R : α → α → Prop} (x : α) :
    ∀ (pos : Nat) (l : List α), pos ≤ l.length → l.Pairwise R →
      (∀ i (hi : i < l.length), i < pos → R (l.get ⟨i, hi⟩) x) →
      (∀ i (hi : i < l.length), pos ≤ i → R x (l.get ⟨i, hi⟩)) →
      (l.insertIdx pos x).Pairwise R := by
  intro pos
  induction pos with
  | zero =>
    intro l hlen hp hL hR
    rw [List.insertIdx_zero]
    refine List.Pairwise.cons ?_ hp
    intro y hy
    rcases List.mem_iff_get.mp hy with ⟨i, rfl⟩
    exact hR i i.isLt (Nat.zero_le _)
  | succ pos ih =>
    intro l hlen hp hL hR
    cases l with
    | nil => simp at hlen
    | cons a l =>
      rw [List.insertIdx_succ_cons]
      have hlen2 : pos ≤ l.length := by simpa using hlen
      refine List.Pairwise.cons ?_ ?_
      · intro y hy
        rcases (List.mem_insertIdx hlen2).mp hy with he | hyl
        · subst he
          exact hL 0 (by simp) (Nat.succ_pos _)
        · exact (List.pairwise_cons.mp hp).1 y hyl
      · refine ih l hlen2 (List.pairwise_cons.mp hp).2 ?_ ?_
        · intro i hi hip
          have hstep := hL (i + 1) (by simpa using Nat.succ_lt_succ hi) (Nat.succ_lt_succ hip)
          simpa using hstep
        · intro i hi hpi
          have hstep := hR (i + 1) (by simpa using Nat.succ_lt_succ hi) (Nat.succ_le_succ hpi)
          simpa using hstep

theorem sorted_insert_recent (l : List BlogEntry) (e : BlogEntry)
    (hs : List.Pairwise (fun x y : BlogEntry => x.creation_date ≤ y.creation_date) l) :
    List.Pairwise (fun x y : BlogEntry => x.creation_date ≤ y.creation_date)
      (l.insertIdx (bsearchPos l e.creation_date) e) := by
  have hspec := bsearchGo_spec l e.creation_date hs l.length 0 l.length (by omega)
    (Nat.zero_le _) (Nat.le_refl _)
    (fun i hi hcon => absurd hcon (Nat.not_lt_zero i))
    (fun i hi hcon => absurd hi (Nat.not_lt.mpr hcon))
  exact pairwise_insertIdx e (bsearchPos l e.creation_date) l
    (bsearchPos_le_length l e.creation_date) hs
    (fun i hi hip => hspec.1 i hi hip)
    (fun i hi hpi => hspec.2 i hi hpi)

theorem natCmp_self (a : Nat) : natCmp a a = .eq := by
  simp [natCmp]

/-- Claim C1 counterexample: after upserting an entry with creation date 1 and then one
with creation date 2 — a state reachable by upserts alone — the recent view is the
ascending list [date 1, date 2], which violates the claimed strict descending order
by date with name tie-break. -/
theorem C1_counterexample :
    ¬ List.Pairwise
      (fun x y : BlogEntry =>
        y.creation_date < x.creation_date ∨
          (x.creation_date = y.creation_date ∧ x.filename < y.filename))
      ((BlogStorage.new.try_store_entry "a.md" aEntry).try_store_entry
          "b.md" bEntry).most_recent_entries := by
  intro hcon
  have hres : ((BlogStorage.new.try_store_entry "a.md" aEntry).try_store_entry
      "b.md" bEntry).most_recent_entries = [aEntry, bEntry] := by decide
  rw [hres] at hcon
  have hrel := (List.pairwise_cons.mp hcon).1 bEntry (by simp)
  rcases hrel with hlt | ⟨heq, _⟩
  · exact absurd hlt (by decide)
  · exact absurd heq (by decide)

/-- Claim C1 (amended): for every store state reachable by any sequence of upsert and
remove operations, the recent view is sorted by creation_date in ascending order
(oldest first, non-strictly); the code has no publish_date field, orders by
creation_date ascending, and applies no name tie-break. -/
theorem C1_recent_sorted_ascending (s : BlogStorage) (h : Reachable s) :
    List.Pairwise (fun x y : BlogEntry => x.creation_date ≤ y.creation_date)
      s.most_recent_entries := by
  induction h with
  | new => exact List.Pairwise.nil
  | store s0 n e hr ih =>
    exact List.Pairwise.sublist (List.take_sublist _ _)
      (sorted_insert_recent s0.most_recent_entries e ih)
  | remove s0 n hr ih => exact ih

/-- Claim C1 witness: the amended sortedness at a concrete reachable two-entry state. -/
theorem C1_recent_sorted_ascending_witness :
    List.Pairwise (fun x y : BlogEntry => x.creation_date ≤ y.creation_date)
      ((BlogStorage.new.try_store_entry "a.md" aEntry).try_store_entry
          "b.md" bEntry).most_recent_entries :=
  C1_recent_sorted_ascending _
    (Reachable.store _ "b.md" bEntry (Reachable.store _ "a.md" aEntry Reachable.new))

/-- Claim C2 counterexample: upsert a.md then remove a.md; the entry is gone from
by_name but still sits in the recent view, so an element of recent carries the
removed name. -/
theorem C2_counterexample :
    (((BlogStorage.new.try_store_entry "a.md" aEntry).remove_entry "a.md").entries
        "a.md" = none)
    ∧ aEntry ∈ (((BlogStorage.new.try_store_entry "a.md" aEntry).remove_entry
        "a.md")).most_recent_entries
    ∧ aEntry.filename = "a.md" := by
  decide

/-- Claim C2 (amended): remove(name) removes the entry from by_name only; the recent
view is left completely unchanged, so an entry whose name was just removed from
by_name may remain in the recent view. -/
theorem C2_remove_only_by_name (s : BlogStorage) (name : String) :
    (s.remove_entry name).most_recent_entries = s.most_recent_entries
    ∧ (s.remove_entry name).entries name = none
    ∧ (∀ m, (s.remove_entry name).entries m = if m = name then none else s.entries m) := by
  refine ⟨rfl, by simp [BlogStorage.remove_entry], ?_⟩
  intro m
  by_cases hm : m = name
  · subst hm
    simp [BlogStorage.remove_entry]
  · simp [BlogStorage.remove_entry, Function.update_noteq hm, if_neg hm]

/-- Claim C3 counterexample: upserting the same entry twice from the empty store
yields the recent view [aEntry, aEntry] whereas upserting once yields [aEntry]: the
two states differ and the double-upsert recent view holds two elements with the
same name. -/
theorem C3_counterexample :
    ((BlogStorage.new.try_store_entry "a.md" aEntry).try_store_entry
        "a.md" aEntry).most_recent_entries = [aEntry, aEntry]
    ∧ (BlogStorage.new.try_store_entry "a.md" aEntry).most_recent_entries = [aEntry] := by
  decide

/-- Claim C3 (amended): upserting twice equals upserting once on the by_name map, but
each upsert inserts a fresh copy into the recent view without removing the previous
element of the same name, so from the empty store a double upsert leaves two copies
of the entry in the recent view. -/
theorem C3_upsert_not_idempotent (s : BlogStorage) (n : String) (e : BlogEntry) :
    ((s.try_store_entry n e).try_store_entry n e).entries = (s.try_store_entry n e).entries
    ∧ ((BlogStorage.new.try_store_entry n e).try_store_entry n e).most_recent_entries
        = [e, e] := by
  constructor
  · funext m
    by_cases hm : m = n
    · subst hm
      simp [BlogStorage.try_store_entry]
    · simp [BlogStorage.try_store_entry, Function.update_noteq hm]
  · have hfirst : (BlogStorage.new.try_store_entry n e).most_recent_entries = [e] := by
      show (([] : List BlogEntry).insertIdx (bsearchPos [] e.creation_date) e).take 10 = [e]
      rw [show bsearchPos ([] : List BlogEntry) e.creation_date = 0 from rfl]
      rfl
    show ((BlogStorage.new.try_store_entry n e).most_recent_entries.insertIdx
        (bsearchPos (BlogStorage.new.try_store_entry n e).most_recent_entries
          e.creation_date) e).take 10 = [e, e]
    rw [hfirst]
    have hpos : bsearchPos [e] e.creation_date = 0 := by
      simp [bsearchPos, bsearchGo, natCmp_self]
    rw [hpos]
    rfl

/-- Claim C4 counterexample: with hello.md cached and _draft.md absent from the store
but present and parseable on disk, GET /blog/_draft.md serves the blog_entry
template for the draft, not the not-found page. -/
theorem C4_counterexample :
    ((BlogStorage.new.try_store_entry "hello.md" helloEntry).entries "_draft.md" = none)
    ∧ (blog "_draft.md" (BlogStorage.new.try_store_entry "hello.md" helloEntry)
          (Except.ok draftEntry)).1 = Page.blog_entry_page draftEntry := by
  decide

/-- Claim C4 (amended): GET /blog/name renders the blog_entry template whenever the
name is cached or the disk load and parse succeeds — no filename eligibility is
checked — and renders the entry_not_found template exactly when the cache misses and
the disk load fails. -/
theorem C4_blog_route_characterization (name : String) (s : BlogStorage)
    (disk : Except String BlogEntry) :
    (blog name s disk).1 =
      match s.entries name, disk with
      | some e, _ => Page.blog_entry_page e
      | none, .ok e => Page.blog_entry_page e
      | none, .error _ => Page.entry_not_found_page name := by
  cases hc : s.entries name <;> cases disk <;> simp [blog, BlogStorage.get_entry, hc]

/-- Claim C5 counterexample: a Created file event for the ineligible filename
_draft.md still broadcasts Reload, because the send in the watcher callback is
unconditional; this contradicts the claim that no Reload is broadcast. -/
theorem C5_counterexample :
    (on_created_file "_draft.md" (Except.ok draftEntry) BlogStorage.new).2 = true := rfl

/-- Claim C5 (amended): for a Created file event with an ineligible filename no entry
is stored — the store is returned unchanged — but a Reload event is broadcast
regardless of eligibility. -/
theorem C5_created_ineligible (filename : String) (parsed : Except String BlogEntry)
    (s : BlogStorage) (h : is_valid_filename_entry filename = false) :
    on_created_file filename parsed s = (s, true) := by
  simp [on_created_file, create_entry, h]

/-- Claim C5 witness: the amended statement at the ineligible filename _draft.md. -/
theorem C5_created_ineligible_witness :
    on_created_file "_draft.md" (Except.ok draftEntry) BlogStorage.new
      = (BlogStorage.new, true) :=
  C5_created_ineligible "_draft.md" (Except.ok draftEntry) BlogStorage.new (by decide)

/-- Claim C6: the request path consisting of a dot-dot segment and then secret
resolves, through the join-then-clean of FileServer::serve, to the path secret,
which is outside the base directory files: cleaning is applied after the join and
does not neutralize traversal. -/
theorem C6_traversal_escape :
    FileServer.resolve ["files"] ["..", "secret"] = ["secret"]
    ∧ ¬ underBase ["files"] (FileServer.resolve ["files"] ["..", "secret"]) := by
  refine ⟨by decide, ?_⟩
  simp only [underBase]
  decide

/-- Claim C7 counterexample: a render-time error makes format_blog_entry panic via
unwrap (modelled as none): no minimal HTML fallback string is returned to the
caller. -/
theorem C7_counterexample :
    format_blog_entry (fun _ => Except.error "boom") = none := rfl

/-- Claim C7 (amended): each rendering helper returns the rendered string exactly when
the handlebars render of its template succeeds, and panics via unwrap on a
render-time error, yielding no fallback value to the caller. -/
theorem C7_render_unwrap_behavior (render : String → Except String String) :
    format_blog_entry render = (render "blog_entry").toOption
    ∧ format_home render = (render "home").toOption
    ∧ format_not_found render = (render "entry_not_found").toOption := by
  refine ⟨?_, ?_, ?_⟩
  · show render_unwrap render "blog_entry" = (render "blog_entry").toOption
    unfold render_unwrap
    cases render "blog_entry" <;> rfl
  · show render_unwrap render "home" = (render "home").toOption
    unfold render_unwrap
    cases render "home" <;> rfl
  · show render_unwrap render "entry_not_found" = (render "entry_not_found").toOption
    unfold render_unwrap
    cases render "entry_not_found" <;> rfl

/-- Claim C8 counterexample: a file whose front-matter carries title but omits author
and publish_date parses successfully into an entry instead of returning a
SchemaError. -/
theorem C8_counterexample :
    parse_file_to_html "x.md"
        (some { front_matter := some { title := some "Hello", author := none,
                                       publish_date := none },
                body := "hi" })
        (some 3) (fun s => s)
      = Except.ok { description := { title := "Hello" }, html := "hi",
                    creation_date := 3, filename := "x.md" } := rfl

/-- Claim C8 (amended): the schema step of parsing requires only title: the
deserialization of PostMetadata succeeds exactly when title is present, and the
author and publish_date front-matter fields are ignored entirely. -/
theorem C8_schema_requires_only_title (f : FrontMatterFields) (a p : Option String) :
    (deserialize_post_metadata f).isOk = f.title.isSome
    ∧ deserialize_post_metadata { f with author := a, publish_date := p }
        = deserialize_post_metadata f := by
  constructor
  · cases ht : f.title <;> simp [deserialize_post_metadata, ht, Except.isOk, Except.toBool]
  · cases ht : f.title <;> simp [deserialize_post_metadata, ht]

/-- Claim C9: in every store state reachable by upsert and remove operations the
length of the recent view is at most max_most_recent_entries, and that bound is 10
(the default set by BlogStorage::new, never changed). -/
theorem C9_recent_bounded (s : BlogStorage) (h : Reachable s) :
    s.max_most_recent_entries = 10
    ∧ s.most_recent_entries.length ≤ s.max_most_recent_entries := by
  induction h with
  | new => exact ⟨rfl, by simp [BlogStorage.new]⟩
  | store s0 n e hr ih =>
    refine ⟨ih.1, ?_⟩
    show ((s0.most_recent_entries.insertIdx _ e).take
        s0.max_most_recent_entries).length ≤ s0.max_most_recent_entries
    rw [List.length_take]
    exact Nat.min_le_left _ _
  | remove s0 n hr ih => exact ih

/-- Claim C9 witness: the bound at a concrete reachable state after one upsert. -/
theorem C9_recent_bounded_witness :
    (BlogStorage.new.try_store_entry "a.md" aEntry).max_most_recent_entries = 10
    ∧ (BlogStorage.new.try_store_entry "a.md" aEntry).most_recent_entries.length
        ≤ (BlogStorage.new.try_store_entry "a.md" aEntry).max_most_recent_entries :=
  C9_recent_bounded _ (Reachable.store _ "a.md" aEntry Reachable.new)

/-- Claim C10 counterexample: with the recent view already full (ten entries, dates 1
to 10), a cache-missing GET for a file with date 11 parses, is returned and is
stored in by_name, but its insertion into the recent view lands past the cap and is
truncated away, so the entry is not added to the recent view. -/
theorem C10_counterexample :
    tenStore.entries "11.md" = none
    ∧ (tenStore.get_entry "11.md" (Except.ok (cexEntry 11))).1 = Except.ok (cexEntry 11)
    ∧ ((tenStore.get_entry "11.md" (Except.ok (cexEntry 11))).2).entries "11.md"
        = some (cexEntry 11)
    ∧ cexEntry 11 ∉
        ((tenStore.get_entry "11.md" (Except.ok (cexEntry 11))).2).most_recent_entries := by
  refine ⟨by decide, rfl, by decide, by decide⟩

/-- Claim C10 (amended): a cache miss with a successful disk parse is not read-only:
it returns the parsed entry and stores it via try_store_entry — into by_name always,
and into the recent view at its sorted position subject to truncation at
max_most_recent_entries, so the entry appears in the recent view whenever the view
was not already full; no filename eligibility policy is applied on this path. -/
theorem C10_get_entry_miss_stores (s : BlogStorage) (name : String) (e : BlogEntry)
    (hmiss : s.entries name = none) :
    s.get_entry name (Except.ok e) = (Except.ok e, s.try_store_entry name e)
    ∧ (s.try_store_entry name e).entries name = some e
    ∧ (s.most_recent_entries.length < s.max_most_recent_entries →
        e ∈ (s.try_store_entry name e).most_recent_entries) := by
  refine ⟨?_, ?_, ?_⟩
  · simp [BlogStorage.get_entry, hmiss]
  · exact Function.update_same name (some e) s.entries
  · intro hlen
    show e ∈ (s.most_recent_entries.insertIdx
        (bsearchPos s.most_recent_entries e.creation_date) e).take s.max_most_recent_entries
    have hple := bsearchPos_le_length s.most_recent_entries e.creation_date
    have hlelen : (s.most_recent_entries.insertIdx
        (bsearchPos s.most_recent_entries e.creation_date) e).length
        ≤ s.max_most_recent_entries := by
      rw [List.length_insertIdx _ _ hple]
      omega
    rw [List.take_of_length_le hlelen]
    exact (List.mem_insertIdx hple).mpr (Or.inl rfl)

/-- Claim C10 witness: the amended statement at the empty store for the ineligible
filename _draft.md, confirming that eligibility is not checked on the read path. -/
theorem C10_get_entry_miss_stores_witness :
    BlogStorage.new.get_entry "_draft.md" (Except.ok draftEntry)
        = (Except.ok draftEntry, BlogStorage.new.try_store_entry "_draft.md" draftEntry)
    ∧ (BlogStorage.new.try_store_entry "_draft.md" draftEntry).entries "_draft.md"
        = some draftEntry
    ∧ (BlogStorage.new.most_recent_entries.length <
          BlogStorage.new.max_most_recent_entries →
        draftEntry ∈ (BlogStorage.new.try_store_entry
            "_draft.md" draftEntry).most_recent_entries) :=
  C10_get_entry_miss_stores BlogStorage.new "_draft.md" draftEntry rfl
